import Mathlib

/-! ## Predictor model guard (`src/predictor.py` lines 69-145)

`predict_single` / `predict_batch` first test `self.model is None` and raise
`ValueError("Model not loaded")` — the spec's `ModelNotLoadedError` — before
any prediction work.  A loaded model is embedded as a function from feature
vectors to the probability of class 1 (`predict_proba(X)[0][1]`); the hard
label is `probability ≥ 0.5` as produced by the scikit-learn classifiers. -/

/-! ## Tenure bucketing (`FeatureEngineer.create_tenure_groups`,
src/feature_engineer.py lines 19-43)

`pd.cut(col, bins=[0,12,24,48,72], labels=...)` places a value `x` in the
interval `(edges[i], edges[i+1]]` — right-closed and left-OPEN, with the
default `right=True` and `include_lowest=False` — and yields `NaN` (no
category) for values outside every interval, in particular for `x = 0`.
`pd.get_dummies` on the resulting categorical column always emits one
indicator column per label, in label order. -/

/-! ## `DataProcessor.clean_data` (src/data_processor.py lines 22-54) -/

/-! ## `DataProcessor.encode_categorical` (src/data_processor.py lines 56-97)

The method reads none of the processor's state: the binary maps are literal
dictionaries and the one-hot expansion is `pd.get_dummies` recomputed from
the categories present in the input, whatever `fit` is. -/

/-! ## `prepare_features`, `scale_features`, `process_pipeline`
(src/data_processor.py lines 99-198) -/

/-! ## Bulk prediction rows (api/routes/predict.py lines 386-500)

Each CSV row is converted with `float`/`int`/`str`, framed as a single-row
DataFrame under the snake_case keys of `input_data`, engineered, then fed to
the same `process_pipeline` call; everything for a row runs inside its own
`try`, a failure becoming that row's error entry.  `float("nan")`-valued
cells are modelled as failing at conversion rather than later inside
sklearn's NaN check; either way the row errors. -/

namespace Churn

/-! ## Risk tiers (`Predictor._get_risk_level`, src/predictor.py lines 147-162) -/

inductive RiskLevel
  | LOW
  | MEDIUM
  | HIGH
deriving DecidableEq, Repr

/-- Ordering LOW < MEDIUM < HIGH used by the spec's monotonicity property. -/
def riskRank : RiskLevel → Nat
  | .LOW => 0
  | .MEDIUM => 1
  | .HIGH => 2

/-- Embedding of `Predictor._get_risk_level`: thresholds 0.7 and 0.4, upper-inclusive. -/
def getRiskLevel (probability : ℚ) : RiskLevel :=
  if probability ≥ 0.7 then .HIGH
  else if probability ≥ 0.4 then .MEDIUM
  else .LOW

/-- A fitted classifier: churn probability for a feature vector. -/
structure Model where
  proba : List ℚ → ℚ

/-- Errors surfaced by the predictor; `modelNotLoaded` is
`ValueError("Model not loaded")`. -/
inductive PredictorError
  | modelNotLoaded
deriving DecidableEq, Repr

structure Predictor where
  model : Option Model
  model_name : String

structure PredictionResult where
  churn_prediction : Bool
  churn_probability : ℚ
  no_churn_probability : ℚ
  risk_level : RiskLevel
  model_name : String
deriving DecidableEq, Repr

/-- Body of `predict_single` after the guard. -/
def predictOne (m : Model) (name : String) (x : List ℚ) : PredictionResult :=
  let churn_prob := m.proba x
  { churn_prediction := decide (churn_prob ≥ 0.5)
    churn_probability := churn_prob
    no_churn_probability := 1 - churn_prob
    risk_level := getRiskLevel churn_prob
    model_name := name }

/-- Embedding of `Predictor.predict_single`: raises when no model is attached. -/
def Predictor.predict_single (p : Predictor) (x : List ℚ) :
    Except PredictorError PredictionResult :=
  match p.model with
  | none => .error .modelNotLoaded
  | some m => .ok (predictOne m p.model_name x)

/-- Embedding of `Predictor.predict_batch`: same guard, then one result per row in order. -/
def Predictor.predict_batch (p : Predictor) (xs : List (List ℚ)) :
    Except PredictorError (List PredictionResult) :=
  match p.model with
  | none => .error .modelNotLoaded
  | some m => .ok (xs.map (predictOne m p.model_name))

/-! ## Recommendations (`Explainer.generate_recommendations`,
src/explainer.py lines 142-201)

A feature impact carries the feature name and its signed SHAP value; the
rule table matches by substring on the lowercased feature name, exactly as
the `if`/`elif` chain in the source. -/

structure FeatureImpact where
  feature : String
  shap_value : ℚ

/-- Membership test `pat in s` for a nonempty pattern, via `splitOn`. -/
def strContains (s pat : String) : Bool := (s.splitOn pat).length > 1

def recContract : String := "Offer a contract upgrade incentive (annual or 2-year plan)"
def recPayment : String := "Promote automatic payment methods with discount"
def recTech : String := "Offer complimentary tech support trial"
def recSecurity : String := "Provide security service package promotion"
def recTenure : String := "Implement loyalty rewards program for long-term customers"
def recDiscount : String := "Consider offering a personalized discount or price adjustment"
def recValue : String := "Highlight value-added services to justify pricing"
def recPriority : String := "⚠️ HIGH PRIORITY: Immediate customer retention outreach required"
def recCall : String := "Schedule proactive customer satisfaction call"
def recMonitor : String := "Monitor customer engagement and satisfaction metrics"
def recSurvey : String := "Conduct customer feedback survey"

/-- One iteration of the `for factor in top_risk_factors` rule chain. -/
def recForFactor (churn_probability : ℚ) (f : FeatureImpact) : Option String :=
  if strContains f.feature.toLower "month_to_month"
      || strContains f.feature.toLower "contract" then
    some recContract
  else if strContains f.feature.toLower "electronic_check"
      || strContains f.feature.toLower "payment" then
    some recPayment
  else if strContains f.feature.toLower "tech_support" then some recTech
  else if strContains f.feature.toLower "online_security"
      || strContains f.feature.toLower "security" then
    some recSecurity
  else if strContains f.feature.toLower "tenure" then some recTenure
  else if strContains f.feature.toLower "charges" then
    some (if churn_probability > 0.7 then recDiscount else recValue)
  else none

/-- The probability-derived tail recommendations. -/
def probRecs (churn_probability : ℚ) : List String :=
  if churn_probability > 0.8 then [recPriority]
  else if churn_probability > 0.6 then [recCall]
  else []

/-- The top three positive contributors of the impact list. -/
def topRiskFactors (feature_impacts : List FeatureImpact) : List FeatureImpact :=
  (feature_impacts.filter (fun f => f.shap_value > 0)).take 3

/-- Embedding of `Explainer.generate_recommendations`: rule-table entries for the top
three positive contributors, then the probability-derived entry, the
two-entry generic fallback when the list is still empty, capped at 5. -/
def generate_recommendations (feature_impacts : List FeatureImpact)
    (churn_probability : ℚ) : List String :=
  (if ((topRiskFactors feature_impacts).filterMap (recForFactor churn_probability)
        ++ probRecs churn_probability).isEmpty
   then [recMonitor, recSurvey]
   else (topRiskFactors feature_impacts).filterMap (recForFactor churn_probability)
        ++ probRecs churn_probability).take 5

/-! ## Best-model selection (`ModelEvaluator.get_best_model`,
src/model_evaluator.py lines 113-129)

`self.metrics` is a Python dict keyed by model name; dicts preserve
insertion order, so it is embedded as an association list.  Python's
`max(items, key=...)` keeps the first of several maximal elements because it
replaces its running best only on a strictly greater key. -/

structure Metrics where
  accuracy : ℚ
  precision : ℚ
  «recall» : ℚ
  f1_score : ℚ
  roc_auc : ℚ
deriving DecidableEq, Repr

/-- The configurable comparison metric; the source default is `roc_auc`. -/
inductive MetricName
  | accuracy
  | precision
  | «recall»
  | f1_score
  | roc_auc
deriving DecidableEq, Repr

def Metrics.get (m : Metrics) : MetricName → ℚ
  | .accuracy => m.accuracy
  | .precision => m.precision
  | .«recall» => m.«recall»
  | .f1_score => m.f1_score
  | .roc_auc => m.roc_auc

/-- One step of Python's `max` with a key function. -/
def pyMaxStep (key : α → ℚ) (best y : α) : α :=
  if key best < key y then y else best

/-- Python `max(xs, key=...)`: `none` on an empty iterable
(where CPython raises), otherwise the first maximal element. -/
def pyMax (key : α → ℚ) : List α → Option α
  | [] => none
  | x :: xs => some (xs.foldl (pyMaxStep key) x)

structure ModelEvaluator where
  metrics : List (String × Metrics)

/-- Embedding of `ModelEvaluator.get_best_model`: `ValueError` when nothing evaluated,
else the (name, value) pair of the best variant under `metric`. -/
def ModelEvaluator.get_best_model (e : ModelEvaluator) (metric : MetricName) :
    Except String (String × ℚ) :=
  match pyMax (fun x => x.2.get metric) e.metrics with
  | none => .error "No models have been evaluated yet"
  | some best => .ok (best.1, best.2.get metric)

/-- Bin index of `x` under `pd.cut` semantics for sorted edges. -/
def pdCutIdx : List ℚ → ℚ → Option Nat
  | lo :: hi :: rest, x =>
    if lo < x ∧ x ≤ hi then some 0
    else (pdCutIdx (hi :: rest) x).map (· + 1)
  | _, _ => none

def tenureBins : List ℚ := [0, 12, 24, 48, 72]

def tenureLabels : List String := ["0-1 year", "1-2 years", "2-4 years", "4+ years"]

/-- The one-hot row that `create_tenure_groups` appends for one tenure value:
one indicator per label, true exactly on the assigned bin. -/
def tenureOneHot (tenure : ℚ) : List Bool :=
  (List.range tenureLabels.length).map
    (fun i => decide (pdCutIdx tenureBins tenure = some i))

/-! ## DataFrame model

A pandas DataFrame is embedded as an ordered list of named columns.  Cell
values are strings, rationals (Python floats/ints in the value range the
code manipulates), booleans (`pd.get_dummies` output dtype) or `NaN`. -/

inductive Val
  | vstr (s : String)
  | vnum (q : ℚ)
  | vbool (b : Bool)
  | na
deriving DecidableEq, Repr

structure Df where
  cols : List (String × List Val)
deriving DecidableEq, Repr

def Df.colNames (df : Df) : List String := df.cols.map (·.1)

def Df.getCol (df : Df) (name : String) : Option (List Val) :=
  (df.cols.find? (fun c => c.1 = name)).map (·.2)

def Df.hasCol (df : Df) (name : String) : Bool :=
  df.cols.any (fun c => c.1 = name)

/-- Assignment `df[name] = vals`: replace in place when the column exists, else append
at the end — pandas column-assignment semantics. -/
def Df.setCol (df : Df) (name : String) (vals : List Val) : Df :=
  if df.hasCol name then
    ⟨df.cols.map (fun c => if c.1 = name then (name, vals) else c)⟩
  else ⟨df.cols ++ [(name, vals)]⟩

def Df.dropCols (df : Df) (names : List String) : Df :=
  ⟨df.cols.filter (fun c => !(names.contains c.1))⟩

def Df.nRows (df : Df) : Nat :=
  match df.cols with
  | [] => 0
  | c :: _ => c.2.length

def Df.row (df : Df) (i : Nat) : List Val :=
  df.cols.map (fun c => c.2.getD i Val.na)

def Df.rows (df : Df) : List (List Val) := (List.range df.nRows).map df.row

/-! ## Numeric coercion (`pd.to_numeric(errors="coerce")` and `float`)

The parser covers optional sign, an integer part and an optional fractional
part — the lexical shapes the charge fields take; other strings coerce to
`NaN` exactly as `errors="coerce"` does. -/

def parseDigits : List Char → Option Nat
  | [] => none
  | cs =>
    cs.foldl
      (fun acc c =>
        acc.bind (fun n => if c.isDigit then some (10 * n + (c.toNat - 48)) else none))
      (some 0)

def parseQcore (cs : List Char) : Option ℚ :=
  let ip := cs.takeWhile (fun c => c ≠ '.')
  match cs.dropWhile (fun c => c ≠ '.') with
  | [] => (parseDigits ip).map (fun n => (n : ℚ))
  | '.' :: frac =>
    match parseDigits ip, parseDigits frac with
    | some n, some f => some ((n : ℚ) + (f : ℚ) / (10 : ℚ) ^ frac.length)
    | _, _ => none
  | _ => none

def parseQ (s : String) : Option ℚ :=
  match s.toList with
  | [] => none
  | '-' :: rest => (parseQcore rest).map (fun q => -q)
  | cs => parseQcore cs

/-- Coercion `pd.to_numeric(v, errors="coerce")` on one cell. -/
def pdToNumericCoerce : Val → Val
  | .vnum q => .vnum q
  | .vbool b => .vnum (if b then 1 else 0)
  | .vstr s =>
    match parseQ s with
    | some q => .vnum q
    | none => .na
  | .na => .na

/-- Forward fill one column: a `NaN` takes the last non-`NaN` value above. -/
def ffillCol (last : Option Val) : List Val → List Val
  | [] => []
  | v :: vs =>
    match v with
    | .na =>
      match last with
      | some l => l :: ffillCol (some l) vs
      | none => Val.na :: ffillCol none vs
    | w => w :: ffillCol (some w) vs

def Df.ffill (df : Df) : Df :=
  ⟨df.cols.map (fun c => (c.1, ffillCol none c.2))⟩

/-- The map `{0:'No', 1:'Yes'}` applied to the SeniorCitizen column: values outside
the dictionary become `NaN`, as pandas `Series.map` does. -/
def mapSeniorCitizen : Val → Val
  | .vnum q => if q = 0 then .vstr "No" else if q = 1 then .vstr "Yes" else .na
  | _ => .na

def clean_data (df : Df) : Df :=
  let df :=
    if df.hasCol "TotalCharges" then
      let tc := (df.getCol "TotalCharges").getD []
      let tc := tc.map (fun v => if v = Val.vstr " " then Val.na else v)
      let tc := tc.map pdToNumericCoerce
      let mc := (df.getCol "MonthlyCharges").getD []
      let tc := tc.mapIdx (fun i v => if v = Val.na then (mc.getD i Val.na) else v)
      df.setCol "TotalCharges" tc
    else df
  let df :=
    if df.hasCol "customerID" then
      df.setCol "customer_id" ((df.getCol "customerID").getD [])
    else df
  let df := df.ffill
  let df :=
    if df.hasCol "SeniorCitizen" then
      df.setCol "SeniorCitizen"
        (((df.getCol "SeniorCitizen").getD []).map mapSeniorCitizen)
    else df
  df

/-- Codepoint-lexicographic order on strings (Python `str` `<`), used by
`pd.get_dummies`, which emits dummy columns in sorted category order. -/
def charListLE : List Char → List Char → Bool
  | [], _ => true
  | _ :: _, [] => false
  | a :: as, b :: bs =>
    if a.toNat < b.toNat then true
    else if b.toNat < a.toNat then false
    else charListLE as bs

def strLE (a b : String) : Bool := charListLE a.toList b.toList

def insertSorted (le : α → α → Bool) (x : α) : List α → List α
  | [] => [x]
  | y :: ys => if le x y then x :: y :: ys else y :: insertSorted le x ys

def sortBy (le : α → α → Bool) : List α → List α
  | [] => []
  | x :: xs => insertSorted le x (sortBy le xs)

/-- The distinct string categories of a column, sorted; `NaN` (and any
non-string cell) yields no category, as in `pd.get_dummies`. -/
def colCategories (vals : List Val) : List String :=
  sortBy strLE
    ((vals.filterMap (fun v => match v with | Val.vstr s => some s | _ => none)).dedup)

/-- Embedding of `pd.get_dummies(df, columns, drop_first)`: the listed
columns that exist are removed, the remaining columns keep their order, and
one boolean indicator column per (sorted) category is appended per listed
column, named `col_category`; `drop_first` drops the first category. -/
def get_dummies (df : Df) (columns : List String) (drop_first : Bool) : Df :=
  let present := columns.filter (fun c => df.hasCol c)
  let kept := df.cols.filter (fun c => !(present.contains c.1))
  let dummies := present.flatMap (fun col =>
    let vals := (df.getCol col).getD []
    let cats := colCategories vals
    let cats := if drop_first then cats.drop 1 else cats
    cats.map (fun cat =>
      (col ++ "_" ++ cat, vals.map (fun v => Val.vbool (v = Val.vstr cat)))))
  ⟨kept ++ dummies⟩

def binary_columns : List (String × List (String × ℚ)) :=
  [("gender", [("Male", 1), ("Female", 0)]),
   ("Partner", [("Yes", 1), ("No", 0)]),
   ("Dependents", [("Yes", 1), ("No", 0)]),
   ("PhoneService", [("Yes", 1), ("No", 0)]),
   ("PaperlessBilling", [("Yes", 1), ("No", 0)]),
   ("SeniorCitizen", [("Yes", 1), ("No", 0)]),
   ("Churn", [("Yes", 1), ("No", 0)])]

def categorical_columns : List String :=
  ["MultipleLines", "InternetService", "OnlineSecurity",
   "OnlineBackup", "DeviceProtection", "TechSupport",
   "StreamingTV", "StreamingMovies", "Contract", "PaymentMethod"]

/-- Application of `Series.map(mapping)` with a string-keyed dictionary. -/
def mapBinary (mapping : List (String × ℚ)) : Val → Val
  | .vstr s =>
    match mapping.find? (fun p => p.1 = s) with
    | some p => .vnum p.2
    | none => .na
  | _ => .na

/-- Embedding of `DataProcessor.encode_categorical(df, fit)`.  The `fit` parameter is
accepted (as in the source signature) but, exactly as in the source body,
never consulted. -/
def encode_categorical (df : Df) (fit : Bool) : Df :=
  let df := binary_columns.foldl
    (fun d p =>
      if d.hasCol p.1 then
        d.setCol p.1 (((d.getCol p.1).getD []).map (mapBinary p.2))
      else d)
    df
  get_dummies df categorical_columns true

/-- Embedding of `DataProcessor.prepare_features`: split off the target column when
present, drop identifier columns, and expose the remaining column names as
the recorded feature list. -/
def prepare_features (df : Df) (target_col : String) :
    Df × Option (List Val) :=
  let y := if df.hasCol target_col then df.getCol target_col else none
  let X := if df.hasCol target_col then df.dropCols [target_col] else df
  let X := X.dropCols ["customerID", "customer_id"]
  (X, y)

def Val.toNum : Val → Option ℚ
  | .vnum q => some q
  | .vbool b => some (if b then 1 else 0)
  | _ => none

/-- sklearn `StandardScaler` at the granularity the claims observe: `fit`
records the fitted column count (`n_features_in_`), which `transform`
validates, raising when the widths differ; an unfitted scaler raises a
`NotFittedError`.  The per-column affine standardization
`(x - mean)/sqrt(variance)` is abstracted to the identity on entries —
`sqrt` is irrational and no claim under verification mentions the
standardized values, only the shape and column alignment of the matrix,
which the affine map preserves.  Non-numeric cells (strings, `NaN`) make
sklearn's validation raise, modelled by the `mapM` failure. -/
structure StandardScaler where
  n_features_in : Option Nat
deriving DecidableEq, Repr

def scale_features (scaler : StandardScaler) (X : Df) (fit : Bool) :
    Except String (StandardScaler × List (List ℚ)) :=
  match X.rows.mapM (fun r => r.mapM Val.toNum) with
  | none => .error "ValueError: could not convert data to float"
  | some m =>
    if fit then .ok ({ n_features_in := some X.cols.length }, m)
    else
      match scaler.n_features_in with
      | none => .error "NotFittedError: StandardScaler instance is not fitted yet"
      | some n =>
        if X.cols.length = n then .ok (scaler, m)
        else .error "ValueError: X has a different number of features than StandardScaler is expecting"

structure DataProcessor where
  scaler : StandardScaler
  feature_names : List String
deriving DecidableEq, Repr

/-- Embedding of `DataProcessor.process_pipeline(df, fit, target_col)`: clean, encode,
split features/target, scale; returns the updated processor state alongside
`(X_scaled, y, feature_names)`. -/
def process_pipeline (proc : DataProcessor) (df : Df) (fit : Bool)
    (target_col : String) :
    Except String (DataProcessor × List (List ℚ) × Option (List Val) × List String) :=
  let df_clean := clean_data df
  let df_encoded := encode_categorical df_clean fit
  let (X, y) := prepare_features df_encoded target_col
  let feature_names := X.colNames
  match scale_features proc.scaler X fit with
  | .error e => .error e
  | .ok (scaler, m) =>
    .ok ({ scaler := scaler, feature_names := feature_names }, m, y, feature_names)

/-! ## FeatureEngineer on the DataFrame model (src/feature_engineer.py)

Elementwise arithmetic follows pandas: operations on `NaN` propagate `NaN`,
comparisons with `NaN` are false. -/

def valDivTenurePlus1 (a b : Val) : Val :=
  match a, b with
  | .vnum x, .vnum y => .vnum (x / (y + 1))
  | _, _ => .na

def valGT01 (a b : Val) : Val :=
  match a, b with
  | .vnum x, .vnum y => .vnum (if y < x then 1 else 0)
  | _, _ => .vnum 0

def valMul (a b : Val) : Val :=
  match a, b with
  | .vnum x, .vnum y => .vnum (x * y)
  | _, _ => .na

def valAddNum (a b : Val) : Val :=
  match a, b with
  | .vnum x, .vnum y => .vnum (x + y)
  | _, _ => .na

/-- Bitwise `&` on the 0/1 indicator columns. -/
def valAnd01 (a b : Val) : Val :=
  match a, b with
  | .vnum x, .vnum y => .vnum (if x ≠ 0 ∧ y ≠ 0 then 1 else 0)
  | _, _ => .na

def create_charge_features (df : Df) : Df :=
  if df.hasCol "MonthlyCharges" && df.hasCol "TotalCharges" then
    let tc := (df.getCol "TotalCharges").getD []
    let mc := (df.getCol "MonthlyCharges").getD []
    let tn := (df.getCol "tenure").getD []
    let avg := List.zipWith valDivTenurePlus1 tc tn
    let df := df.setCol "avg_monthly_charges" avg
    let df := df.setCol "charge_increase" (List.zipWith valGT01 mc avg)
    df.setCol "charge_per_tenure" (List.zipWith valDivTenurePlus1 mc tn)
  else df

def service_columns : List String :=
  ["PhoneService", "MultipleLines", "OnlineSecurity",
   "OnlineBackup", "DeviceProtection", "TechSupport",
   "StreamingTV", "StreamingMovies"]

def security_services : List String :=
  ["OnlineSecurity", "OnlineBackup", "DeviceProtection", "TechSupport"]

/-- A column has pandas `object` dtype when it holds strings. -/
def colIsObject (vals : List Val) : Bool :=
  vals.any (fun v => match v with | Val.vstr _ => true | _ => false)

/-- One `+=` step of the service count: `(col == 'Yes').astype(int)` for an
object column, the raw (numeric) column otherwise. -/
def serviceContribution (vals : List Val) : List Val :=
  if colIsObject vals then
    vals.map (fun v => Val.vnum (if v = Val.vstr "Yes" then 1 else 0))
  else
    vals.map (fun v => match v.toNum with | some q => Val.vnum q | none => Val.na)

def zerosCol (n : Nat) : List Val := List.replicate n (Val.vnum 0)

def create_service_features (df : Df) : Df :=
  let existing := service_columns.filter df.hasCol
  if existing.isEmpty then df
  else
    let total := existing.foldl
      (fun acc col =>
        List.zipWith valAddNum acc (serviceContribution ((df.getCol col).getD [])))
      (zerosCol df.nRows)
    let df := df.setCol "total_services" total
    let df :=
      if df.hasCol "InternetService" then
        df.setCol "has_internet"
          (((df.getCol "InternetService").getD []).map
            (fun v => Val.vnum (if v ≠ Val.vstr "No" then 1 else 0)))
      else df
    let sec := security_services.filter df.hasCol
    if sec.isEmpty then df
    else
      let s := sec.foldl
        (fun acc col =>
          List.zipWith valAddNum acc (serviceContribution ((df.getCol col).getD [])))
        (zerosCol df.nRows)
      let s := s.map (fun v =>
        match v with
        | Val.vnum q => Val.vnum (if 0 < q then 1 else 0)
        | _ => Val.vnum 0)
      df.setCol "has_security" s

def create_contract_features (df : Df) : Df :=
  let df :=
    if df.hasCol "Contract" then
      let c := (df.getCol "Contract").getD []
      let df := df.setCol "is_month_to_month"
        (c.map (fun v => Val.vnum (if v = Val.vstr "Month-to-month" then 1 else 0)))
      df.setCol "has_long_contract"
        (c.map (fun v =>
          Val.vnum (if v = Val.vstr "One year" ∨ v = Val.vstr "Two year" then 1 else 0)))
    else df
  if df.hasCol "PaymentMethod" then
    let p := (df.getCol "PaymentMethod").getD []
    let df := df.setCol "is_auto_payment"
      (p.map (fun v =>
        match v with
        | Val.vstr s => Val.vnum (if strContains s.toLower "automatic" then 1 else 0)
        | _ => Val.vnum 0))
    df.setCol "is_electronic_check"
      (p.map (fun v => Val.vnum (if v = Val.vstr "Electronic check" then 1 else 0)))
  else df

/-- Embedding of `create_tenure_groups` on the DataFrame: `pd.cut` assigns a bin (or none,
for values at or outside the edges) and `pd.get_dummies` on the resulting
categorical column emits one indicator column per label — all four labels,
since the dtype carries them — appended at the end. -/
def create_tenure_groups (df : Df) : Df :=
  if df.hasCol "tenure" then
    let tn := (df.getCol "tenure").getD []
    let binIdx := tn.map (fun v =>
      match v with
      | Val.vnum q => pdCutIdx tenureBins q
      | _ => none)
    let dummies := (List.range tenureLabels.length).map (fun i =>
      ("tenure_" ++ tenureLabels.getD i "",
       binIdx.map (fun b => Val.vbool (b = some i))))
    ⟨df.cols ++ dummies⟩
  else df

def create_interaction_features (df : Df) : Df :=
  let df :=
    if df.hasCol "tenure" && df.hasCol "MonthlyCharges" then
      df.setCol "tenure_charges_interaction"
        (List.zipWith valMul ((df.getCol "tenure").getD [])
          ((df.getCol "MonthlyCharges").getD []))
    else df
  if df.hasCol "is_month_to_month" && df.hasCol "is_electronic_check" then
    df.setCol "risky_customer"
      (List.zipWith valAnd01 ((df.getCol "is_month_to_month").getD [])
        ((df.getCol "is_electronic_check").getD []))
  else df

/-- Embedding of `FeatureEngineer.engineer_features`: the five steps in source order. -/
def engineer_features (df : Df) : Df :=
  create_interaction_features
    (create_tenure_groups
      (create_contract_features
        (create_service_features
          (create_charge_features df))))

/-! ## Concrete training corpus and single serving record for the
feature-parity claim -/

def trainCorpus : Df := ⟨[
  ("tenure", [Val.vnum 1, Val.vnum 2, Val.vnum 3]),
  ("MonthlyCharges", [Val.vnum 50, Val.vnum 60, Val.vnum 70]),
  ("TotalCharges", [Val.vnum 50, Val.vnum 120, Val.vnum 210]),
  ("Contract", [Val.vstr "Month-to-month", Val.vstr "One year", Val.vstr "Two year"]),
  ("Churn", [Val.vstr "Yes", Val.vstr "No", Val.vstr "No"])]⟩

/-- A transform-mode record whose Contract value is one of the fit-time
categories; it simply does not exhibit the other two. -/
def singleRecord : Df := ⟨[
  ("tenure", [Val.vnum 1]),
  ("MonthlyCharges", [Val.vnum 90]),
  ("TotalCharges", [Val.vnum 90]),
  ("Contract", [Val.vstr "Month-to-month"])]⟩

def initProcessor : DataProcessor := ⟨⟨none⟩, []⟩

/-- The processor state after running the pipeline in fit mode on
`trainCorpus`. -/
def fittedProcessor : DataProcessor :=
  match process_pipeline initProcessor trainCorpus true "Churn" with
  | .ok (p, _, _, _) => p
  | .error _ => initProcessor

/-! ## Serving call sites (api/routes/predict.py)

`DataProcessor.process_pipeline` declares exactly the parameters
`(df, fit, target_col)` besides `self` (src/data_processor.py line 151).
Both single-prediction serving paths call it with `df` positional plus the
keywords `fit`, `target_col` and `expected_features`
(api/routes/predict.py lines 201-207 and 439-445).  Python binds keywords
by name and raises `TypeError` on any keyword that matches no parameter;
that binding step is modelled explicitly. -/

def processPipelineParams : List String := ["df", "fit", "target_col"]

def servingCallKwargs : List String := ["fit", "target_col", "expected_features"]

def unexpectedKwargs (params kwargs : List String) : List String :=
  kwargs.filter (fun k => !(params.contains k))

/-- The serving-path invocation of `process_pipeline`: Python keyword
binding first, the callee body only if every keyword is accepted. -/
def callProcessPipeline (kwargs : List String) (proc : DataProcessor)
    (df : Df) (fit : Bool) (target_col : String) :
    Except String (DataProcessor × List (List ℚ) × Option (List Val) × List String) :=
  match unexpectedKwargs processPipelineParams kwargs with
  | [] => process_pipeline proc df fit target_col
  | k :: _ =>
    .error ("TypeError: process_pipeline() got an unexpected keyword argument " ++ k)

inductive ApiResult (α : Type)
  | ok (value : α)
  | httpError (status : Nat) (detail : String)
deriving DecidableEq, Repr

/-- The `/predict` handler core after models are loaded: engineer features,
run the pipeline in transform mode (with the serving keywords), predict;
any exception becomes the HTTP 500 error branch. -/
def predict_churn (proc : DataProcessor) (pred : Predictor) (df_input : Df) :
    ApiResult PredictionResult :=
  match callProcessPipeline servingCallKwargs proc (engineer_features df_input)
      false "Churn" with
  | .error e => .httpError 500 ("Prediction failed: " ++ e)
  | .ok (_, m, _, _) =>
    match pred.predict_single (m.getD 0 []) with
    | .error _ => .httpError 500 "Prediction failed: Model not loaded"
    | .ok r => .ok r

/-- Leading/trailing-whitespace strip, as Python's numeric constructors
apply to string arguments. -/
def strTrim (s : String) : String :=
  ⟨((s.toList.dropWhile Char.isWhitespace).reverse.dropWhile
      Char.isWhitespace).reverse⟩

def pyFloat : Val → Except String ℚ
  | .vnum q => .ok q
  | .vbool b => .ok (if b then 1 else 0)
  | .vstr s =>
    match parseQ (strTrim s) with
    | some q => .ok q
    | none => .error ("ValueError: could not convert string to float: " ++ s)
  | .na => .error "ValueError: cannot convert NaN"

/-- Python `int()` truncates toward zero; strings must be integer literals. -/
def pyInt : Val → Except String ℤ
  | .vnum q => .ok (if q < 0 then -((-q).floor) else q.floor)
  | .vbool b => .ok (if b then 1 else 0)
  | .vstr s =>
    match parseQ (strTrim s) with
    | some q => if q.den = 1 then .ok q.num else
        .error ("ValueError: invalid literal for int: " ++ s)
    | none => .error ("ValueError: invalid literal for int: " ++ s)
  | .na => .error "ValueError: cannot convert float NaN to integer"

def pyStr : Val → String
  | .vstr s => s
  | .vnum q => toString q
  | .vbool b => if b then "True" else "False"
  | .na => "nan"

def rowGet (row : List (String × Val)) (k : String) (d : Val) : Val :=
  match row.find? (fun p => p.1 = k) with
  | some p => p.2
  | none => d

/-- The `input_data` dict of `bulk_predict` as a single-row DataFrame, with the
dict's key order and defaults (api/routes/predict.py lines 411-434). -/
def bulkInputDf (row : List (String × Val)) : Except String Df := do
  let senior ← pyInt (rowGet row "SeniorCitizen" (Val.vnum 0))
  let tenure ← pyInt (rowGet row "tenure" (Val.vnum 0))
  let mc ← pyFloat (rowGet row "MonthlyCharges" (Val.vnum 0))
  let tc ← pyFloat (rowGet row "TotalCharges" (Val.vnum 0))
  .ok ⟨[
    ("gender", [Val.vstr (pyStr (rowGet row "gender" (Val.vstr "Male")))]),
    ("senior_citizen", [Val.vnum (senior : ℚ)]),
    ("partner", [Val.vstr (pyStr (rowGet row "Partner" (Val.vstr "No")))]),
    ("dependents", [Val.vstr (pyStr (rowGet row "Dependents" (Val.vstr "No")))]),
    ("tenure", [Val.vnum (tenure : ℚ)]),
    ("phone_service", [Val.vstr (pyStr (rowGet row "PhoneService" (Val.vstr "No")))]),
    ("multiple_lines", [Val.vstr (pyStr (rowGet row "MultipleLines" (Val.vstr "No")))]),
    ("internet_service", [Val.vstr (pyStr (rowGet row "InternetService" (Val.vstr "No")))]),
    ("online_security", [Val.vstr (pyStr (rowGet row "OnlineSecurity" (Val.vstr "No")))]),
    ("online_backup", [Val.vstr (pyStr (rowGet row "OnlineBackup" (Val.vstr "No")))]),
    ("device_protection", [Val.vstr (pyStr (rowGet row "DeviceProtection" (Val.vstr "No")))]),
    ("tech_support", [Val.vstr (pyStr (rowGet row "TechSupport" (Val.vstr "No")))]),
    ("streaming_tv", [Val.vstr (pyStr (rowGet row "StreamingTV" (Val.vstr "No")))]),
    ("streaming_movies", [Val.vstr (pyStr (rowGet row "StreamingMovies" (Val.vstr "No")))]),
    ("contract", [Val.vstr (pyStr (rowGet row "Contract" (Val.vstr "Month-to-month")))]),
    ("paperless_billing", [Val.vstr (pyStr (rowGet row "PaperlessBilling" (Val.vstr "No")))]),
    ("payment_method", [Val.vstr (pyStr (rowGet row "PaymentMethod" (Val.vstr "Electronic check")))]),
    ("monthly_charges", [Val.vnum mc]),
    ("total_charges", [Val.vnum tc])]⟩

/-- Everything inside one iteration of the `for idx, row in df.iterrows()`
try-block of `bulk_predict`. -/
def bulkProcessRow (proc : DataProcessor) (pred : Predictor)
    (row : List (String × Val)) : Except String PredictionResult := do
  let df_single ← bulkInputDf row
  let df_eng := engineer_features df_single
  match callProcessPipeline servingCallKwargs proc df_eng false "Churn" with
  | .error e => .error e
  | .ok (_, m, _, _) =>
    match pred.predict_single (m.getD 0 []) with
    | .error _ => .error "Model not loaded"
    | .ok r => .ok r

structure BulkRowResult where
  row_number : Nat
  customer_id : String
  error : Option String
  churn_probability : Option ℚ
  churn_prediction : Option Bool
  risk_level : Option RiskLevel
deriving DecidableEq, Repr

/-- Embedding of the `bulk_predict` row loop: one entry per row in input order; a row
failure is captured as that row's error entry and the loop continues. -/
def bulk_predict (proc : DataProcessor) (pred : Predictor)
    (rows : List (List (String × Val))) : List BulkRowResult :=
  rows.enum.map (fun p =>
    match bulkProcessRow proc pred p.2 with
    | .ok r =>
      { row_number := p.1 + 1, customer_id := "BULK", error := none,
        churn_probability := some r.churn_probability,
        churn_prediction := some r.churn_prediction,
        risk_level := some r.risk_level }
    | .error e =>
      { row_number := p.1 + 1, customer_id := "ERROR_ROW_" ++ toString (p.1 + 1),
        error := some e, churn_probability := none,
        churn_prediction := none, risk_level := none })

/-- A well-formed bulk row (capitalized CSV headers, as in the dataset). -/
def bulkGoodRow : List (String × Val) :=
  [("gender", Val.vstr "Female"), ("SeniorCitizen", Val.vnum 0),
   ("Partner", Val.vstr "Yes"), ("tenure", Val.vnum 12),
   ("Contract", Val.vstr "Month-to-month"),
   ("PaymentMethod", Val.vstr "Electronic check"),
   ("MonthlyCharges", Val.vnum 85), ("TotalCharges", Val.vnum 1020)]

/-- A malformed bulk row: non-numeric monthly charge. -/
def bulkBadRow : List (String × Val) :=
  [("gender", Val.vstr "Male"), ("tenure", Val.vnum 3),
   ("MonthlyCharges", Val.vstr "abc"), ("TotalCharges", Val.vnum 100)]

/-! ## TrainingJob state machine (api/routes/train.py)

`train_models_task` is modelled as the ordered list of `TrainingJob` rows it
commits: the pending row created by the POST handler, the first commit
(status running, progress 0.1) and one snapshot per subsequent stage commit.
ML work runs between commits; an exception in the work segment after the
k-th commit sends the job to the `except` handler, which commits the failed
row.  The execution is therefore parameterized by the evaluated metrics, the
feature-name list, and an optional failure point `(segment index, message)`.
Timestamps are abstracted to presence flags. -/

inductive JobStatus
  | pending
  | running
  | completed
  | failed
deriving DecidableEq, Repr

structure JobResults where
  best_model : String
  feature_count : Nat
deriving DecidableEq, Repr

structure TrainingJobRec where
  status : JobStatus
  progress : ℚ
  current_model : Option String
  error_message : Option String
  started : Bool
  completed_at : Bool
  results : Option JobResults
deriving DecidableEq, Repr

/-- The row created by the submission endpoint (train.py lines 203-210),
with the column defaults of app/models.py lines 155-156. -/
def initialJob : TrainingJobRec :=
  { status := .pending, progress := 0, current_model := none,
    error_message := none, started := false, completed_at := false,
    results := none }

/-- The first commit of the task (train.py lines 55-59): running, started,
stage "Loading data", progress 0.1. -/
def runningJob1 : TrainingJobRec :=
  { status := .running, progress := 0.1, current_model := some "Loading data",
    error_message := none, started := true, completed_at := false,
    results := none }

/-- The seven later progress/stage commits, in source order
(train.py lines 66-135). -/
def laterStageUpdates : List (ℚ × String) :=
  [(0.2, "Engineering features"), (0.3, "Processing data"),
   (0.4, "Splitting data"), (0.5, "Training models"),
   (0.7, "Evaluating models"), (0.8, "Saving models"),
   (0.9, "Saving metrics")]

def applyStage (j : TrainingJobRec) (u : ℚ × String) : TrainingJobRec :=
  { j with progress := u.1, current_model := some u.2 }

/-- The `except` handler (train.py lines 176-184). -/
def failJob (j : TrainingJobRec) (msg : String) : TrainingJobRec :=
  { j with status := .failed, error_message := some msg, completed_at := true }

/-- The completion commit (train.py lines 162-172). -/
def completeJob (j : TrainingJobRec) (res : JobResults) : TrainingJobRec :=
  { j with
    status := .completed
    progress := 1
    completed_at := true
    results := some res }

/-- Whether the work segment after the k-th commit raises, and its message. -/
def failsHere (failAt : Option (Nat × String)) (k : Nat) : Option String :=
  match failAt with
  | some (k', msg) => if k' = k then some msg else none
  | none => none

/-- Snapshots committed after `j` (the k-th commit): work segment `k` runs
first; on failure the failed row is committed, otherwise the next stage is
committed and execution continues.  After the last commit's work the
completion block builds the results — its `get_best_model()` call can itself
raise into the failure handler. -/
def runSegs (ms : List (String × Metrics)) (fn : List String)
    (failAt : Option (Nat × String)) :
    Nat → TrainingJobRec → List (ℚ × String) → List TrainingJobRec
  | k, j, [] =>
    match failsHere failAt k with
    | some msg => [failJob j msg]
    | none =>
      match (ModelEvaluator.mk ms).get_best_model .roc_auc with
      | .ok best => [completeJob j ⟨best.1, fn.length⟩]
      | .error e => [failJob j e]
  | k, j, u :: us =>
    match failsHere failAt k with
    | some msg => [failJob j msg]
    | none => applyStage j u :: runSegs ms fn failAt (k + 1) (applyStage j u) us

/-- One full execution of the background task as its committed history. -/
def train_models_task (ms : List (String × Metrics)) (fn : List String)
    (failAt : Option (Nat × String)) : List TrainingJobRec :=
  initialJob :: runningJob1 :: runSegs ms fn failAt 0 runningJob1 laterStageUpdates

/-- The transitions the spec's state machine allows between consecutive
committed rows. -/
def allowedTransition (a b : TrainingJobRec) : Prop :=
  (a.status = .pending ∧ b.status = .running) ∨
  (a.status = .running ∧
    (b.status = .running ∨ b.status = .completed ∨ b.status = .failed))

end Churn

open Churn

theorem getRiskLevel_high_iff (p : ℚ) : getRiskLevel p = .HIGH ↔ 0.7 ≤ p := by
  unfold getRiskLevel
  split_ifs with h1 h2 <;> simp_all <;> linarith

theorem getRiskLevel_medium_iff (p : ℚ) :
    getRiskLevel p = .MEDIUM ↔ 0.4 ≤ p ∧ p < 0.7 := by
  unfold getRiskLevel
  split_ifs with h1 h2 <;> simp_all <;> linarith

theorem getRiskLevel_low_iff (p : ℚ) : getRiskLevel p = .LOW ↔ p < 0.4 := by
  unfold getRiskLevel
  split_ifs with h1 h2 <;> simp_all <;> linarith

theorem recForFactor_mem (p : ℚ) (f : FeatureImpact) (s : String)
    (h : recForFactor p f = some s) :
    s = recContract ∨ s = recPayment ∨ s = recTech ∨ s = recSecurity ∨
    s = recTenure ∨ s = recDiscount ∨ s = recValue := by
  unfold recForFactor at h
  by_cases c1 : (strContains f.feature.toLower "month_to_month"
      || strContains f.feature.toLower "contract") = true
  · rw [if_pos c1] at h
    exact Or.inl (Option.some.inj h).symm
  rw [if_neg c1] at h
  by_cases c2 : (strContains f.feature.toLower "electronic_check"
      || strContains f.feature.toLower "payment") = true
  · rw [if_pos c2] at h
    exact Or.inr (Or.inl (Option.some.inj h).symm)
  rw [if_neg c2] at h
  by_cases c3 : strContains f.feature.toLower "tech_support" = true
  · rw [if_pos c3] at h
    exact Or.inr (Or.inr (Or.inl (Option.some.inj h).symm))
  rw [if_neg c3] at h
  by_cases c4 : (strContains f.feature.toLower "online_security"
      || strContains f.feature.toLower "security") = true
  · rw [if_pos c4] at h
    exact Or.inr (Or.inr (Or.inr (Or.inl (Option.some.inj h).symm)))
  rw [if_neg c4] at h
  by_cases c5 : strContains f.feature.toLower "tenure" = true
  · rw [if_pos c5] at h
    exact Or.inr (Or.inr (Or.inr (Or.inr (Or.inl (Option.some.inj h).symm))))
  rw [if_neg c5] at h
  by_cases c6 : strContains f.feature.toLower "charges" = true
  · rw [if_pos c6] at h
    by_cases c7 : p > (0.7 : ℚ)
    · rw [if_pos c7] at h
      exact Or.inr (Or.inr (Or.inr (Or.inr (Or.inr (Or.inl
        (Option.some.inj h).symm)))))
    · rw [if_neg c7] at h
      exact Or.inr (Or.inr (Or.inr (Or.inr (Or.inr (Or.inr
        (Option.some.inj h).symm)))))
  · rw [if_neg c6] at h
    simp at h

theorem rule_recs_exclude (p : ℚ) (fi : List FeatureImpact) (s : String)
    (hs : s = recPriority ∨ s = recCall ∨ s = recMonitor ∨ s = recSurvey) :
    s ∉ (topRiskFactors fi).filterMap (recForFactor p) := by
  intro hmem
  obtain ⟨f, _, hf⟩ := List.mem_filterMap.1 hmem
  rcases recForFactor_mem _ _ _ hf with h|h|h|h|h|h|h <;>
    rcases hs with rfl|rfl|rfl|rfl <;> exact absurd h (by decide)

theorem probRecs_eq_nil_iff (p : ℚ) : probRecs p = [] ↔ p ≤ 0.6 := by
  unfold probRecs
  split_ifs <;> simp <;> linarith

theorem recPriority_mem_probRecs (p : ℚ) : recPriority ∈ probRecs p ↔ 0.8 < p := by
  have hne : recPriority ≠ recCall := by decide
  unfold probRecs
  split_ifs with h1 h2
  · simp [h1]
  · simp [hne, h1]
  · simp [h1]

theorem recCall_mem_probRecs (p : ℚ) :
    recCall ∈ probRecs p ↔ 0.6 < p ∧ p ≤ 0.8 := by
  have hne : recCall ≠ recPriority := by decide
  unfold probRecs
  split_ifs with h1 h2
  · simp only [List.mem_singleton, hne, false_iff]
    rintro ⟨_, h8⟩
    linarith
  · simp only [List.mem_singleton, true_iff]
    exact ⟨h2, le_of_not_lt h1⟩
  · simp only [List.not_mem_nil, false_iff]
    rintro ⟨h6, _⟩
    exact h2 h6

theorem rule_recs_length_le (p : ℚ) (fi : List FeatureImpact) :
    ((topRiskFactors fi).filterMap (recForFactor p)).length ≤ 3 := by
  have h1 := List.length_filterMap_le (recForFactor p) (topRiskFactors fi)
  have h2 : (topRiskFactors fi).length ≤ 3 := by
    simp only [topRiskFactors, List.length_take]
    exact min_le_left _ _
  omega

theorem probRecs_length_le (p : ℚ) : (probRecs p).length ≤ 1 := by
  unfold probRecs
  split_ifs <;> simp

theorem foldl_pyMaxStep_mem (key : α → ℚ) (x : α) (xs : List α) :
    xs.foldl (pyMaxStep key) x ∈ x :: xs := by
  induction xs generalizing x with
  | nil => simp
  | cons y xs ih =>
    have h := ih (pyMaxStep key x y)
    simp only [List.foldl_cons]
    rcases List.mem_cons.1 h with h' | h'
    · rw [h']
      by_cases hk : key x < key y
      · simp [pyMaxStep, hk]
      · simp [pyMaxStep, hk]
    · simp [h']

theorem foldl_pyMaxStep_le (key : α → ℚ) (x : α) (xs : List α) :
    ∀ a ∈ x :: xs, key a ≤ key (xs.foldl (pyMaxStep key) x) := by
  induction xs generalizing x with
  | nil =>
    intro a ha
    simp at ha
    simp [ha]
  | cons y xs ih =>
    intro a ha
    simp only [List.foldl_cons]
    have hx : key x ≤ key (pyMaxStep key x y) := by
      by_cases hk : key x < key y <;> simp [pyMaxStep, hk]
      exact le_of_lt hk
    have hy : key y ≤ key (pyMaxStep key x y) := by
      by_cases hk : key x < key y <;> simp [pyMaxStep, hk]
      exact le_of_not_lt hk
    rcases List.mem_cons.1 ha with heq | ha'
    · rw [heq]
      exact le_trans hx (ih (pyMaxStep key x y) _ (List.mem_cons_self _ _))
    rcases List.mem_cons.1 ha' with heq | ha''
    · rw [heq]
      exact le_trans hy (ih (pyMaxStep key x y) _ (List.mem_cons_self _ _))
    · exact ih (pyMaxStep key x y) a (List.mem_cons_of_mem _ ha'')

theorem foldl_pyMaxStep_first (key : α → ℚ) (x : α) (xs : List α) :
    ∃ l₁ l₂, x :: xs = l₁ ++ (xs.foldl (pyMaxStep key) x) :: l₂ ∧
      ∀ a ∈ l₁, key a < key (xs.foldl (pyMaxStep key) x) := by
  induction xs generalizing x with
  | nil => exact ⟨[], [], rfl, by simp⟩
  | cons y xs ih =>
    simp only [List.foldl_cons]
    by_cases hk : key x < key y
    · have hstep : pyMaxStep key x y = y := by simp [pyMaxStep, hk]
      rw [hstep]
      obtain ⟨l₁, l₂, hsplit, hlt⟩ := ih y
      have hyr : key y ≤ key (xs.foldl (pyMaxStep key) y) :=
        foldl_pyMaxStep_le key y xs y (List.mem_cons_self _ _)
      refine ⟨x :: l₁, l₂, ?_, ?_⟩
      · rw [List.cons_append, ← hsplit]
      · intro a ha
        rcases List.mem_cons.1 ha with rfl | ha'
        · exact lt_of_lt_of_le hk hyr
        · exact hlt a ha'
    · have hstep : pyMaxStep key x y = x := by simp [pyMaxStep, hk]
      rw [hstep]
      obtain ⟨l₁, l₂, hsplit, hlt⟩ := ih x
      set r := xs.foldl (pyMaxStep key) x with hr
      cases l₁ with
      | nil =>
        simp only [List.nil_append] at hsplit
        injection hsplit with hx hl
        refine ⟨[], y :: xs, ?_, by simp⟩
        rw [List.nil_append, ← hx]
      | cons x' t =>
        simp only [List.cons_append] at hsplit
        injection hsplit with hx hxs
        subst hx
        have hxlt : key x < key (xs.foldl (pyMaxStep key) x) :=
          hlt x (List.mem_cons_self _ _)
        refine ⟨x :: y :: t, l₂, ?_, ?_⟩
        · rw [hxs]
          simp
        · intro a ha
          rcases List.mem_cons.1 ha with rfl | ha'
          · exact hxlt
          rcases List.mem_cons.1 ha' with rfl | ha''
          · exact lt_of_le_of_lt (le_of_not_lt hk) hxlt
          · exact hlt a (List.mem_cons_of_mem _ ha'')

theorem riskRank_mono {p q : ℚ} (h : p ≤ q) :
    riskRank (getRiskLevel p) ≤ riskRank (getRiskLevel q) := by
  unfold getRiskLevel
  split_ifs <;> simp [riskRank] <;> linarith

theorem getLast?_cons_of_ne_nil (a : α) {l : List α} (h : l ≠ []) :
    (a :: l).getLast? = l.getLast? := by
  cases l with
  | nil => exact absurd rfl h
  | cons b t => exact List.getLast?_cons_cons

theorem dropLast_cons_of_ne_nil (a : α) {l : List α} (h : l ≠ []) :
    (a :: l).dropLast = a :: l.dropLast := by
  cases l with
  | nil => exact absurd rfl h
  | cons b t => rfl

/-- The conjunction of invariants carried through the committed snapshots. -/
theorem runSegs_invariant (ms : List (String × Metrics)) (fn : List String)
    (failAt : Option (Nat × String)) :
    ∀ us k (j : TrainingJobRec), j.status = .running → 0 ≤ j.progress →
      j.progress ≤ 1 →
      List.Chain' (· ≤ ·) (j.progress :: us.map Prod.fst) →
      (∀ u ∈ us, u.1 ≤ 1) →
      (runSegs ms fn failAt k j us ≠ [] ∧
       List.Chain' allowedTransition (j :: runSegs ms fn failAt k j us) ∧
       (∀ x ∈ runSegs ms fn failAt k j us, 0 ≤ x.progress ∧ x.progress ≤ 1) ∧
       List.Chain' (fun a b => a.progress ≤ b.progress)
         (j :: runSegs ms fn failAt k j us) ∧
       (∀ x ∈ (j :: runSegs ms fn failAt k j us).dropLast,
         x.status = .running) ∧
       (∀ k₀ msg₀, failAt = some (k₀, msg₀) → k ≤ k₀ → k₀ ≤ k + us.length →
         ∃ L, (runSegs ms fn failAt k j us).getLast? = some L ∧
           L.status = .failed ∧ L.error_message = some msg₀ ∧
           L.completed_at = true) ∧
       (failAt = none →
         ∀ best, (ModelEvaluator.mk ms).get_best_model .roc_auc = .ok best →
         ∃ L, (runSegs ms fn failAt k j us).getLast? = some L ∧
           L.status = .completed ∧ L.progress = 1 ∧ L.completed_at = true ∧
           L.results = some ⟨best.1, fn.length⟩)) := by
  intro us
  induction us with
  | nil =>
    intro k j hst h0 h1 _ _
    cases hf : failsHere failAt k with
    | some msg =>
      have hseg : runSegs ms fn failAt k j [] = [failJob j msg] := by
        simp [runSegs, hf]
      rw [hseg]
      refine ⟨by simp, ?_, ?_, ?_, ?_, ?_, ?_⟩
      · exact List.chain'_cons.mpr
          ⟨Or.inr ⟨hst, Or.inr (Or.inr rfl)⟩, List.chain'_singleton _⟩
      · intro x hx
        rw [List.mem_singleton] at hx
        rw [hx]
        exact ⟨h0, h1⟩
      · exact List.chain'_cons.mpr ⟨le_refl _, List.chain'_singleton _⟩
      · intro x hx
        simp at hx
        rw [hx]
        exact hst
      · intro k₀ msg₀ hfa _ _
        rw [hfa] at hf
        simp only [failsHere] at hf
        by_cases hk : k₀ = k
        · rw [if_pos hk, Option.some.injEq] at hf
          subst hf
          exact ⟨failJob j msg₀, by simp, rfl, rfl, rfl⟩
        · rw [if_neg hk] at hf
          exact absurd hf (by simp)
      · intro hnone
        rw [hnone] at hf
        simp [failsHere] at hf
    | none =>
      cases hbm : (ModelEvaluator.mk ms).get_best_model .roc_auc with
      | ok best =>
        have hseg : runSegs ms fn failAt k j [] =
            [completeJob j ⟨best.1, fn.length⟩] := by
          simp [runSegs, hf, hbm]
        rw [hseg]
        refine ⟨by simp, ?_, ?_, ?_, ?_, ?_, ?_⟩
        · exact List.chain'_cons.mpr
            ⟨Or.inr ⟨hst, Or.inr (Or.inl rfl)⟩, List.chain'_singleton _⟩
        · intro x hx
          rw [List.mem_singleton] at hx
          rw [hx]
          exact ⟨by norm_num [completeJob], by norm_num [completeJob]⟩
        · exact List.chain'_cons.mpr ⟨h1, List.chain'_singleton _⟩
        · intro x hx
          simp at hx
          rw [hx]
          exact hst
        · intro k₀ msg₀ hfa hk1 hk2
          have hk' : k₀ = k := Nat.le_antisymm (by simpa using hk2) hk1
          rw [hfa] at hf
          simp only [failsHere, if_pos hk'] at hf
          exact absurd hf (by simp)
        · intro _ best' hbm'
          injection hbm' with hb
          subst hb
          exact ⟨completeJob j ⟨best.1, fn.length⟩, by simp, rfl, rfl, rfl, rfl⟩
      | error e =>
        have hseg : runSegs ms fn failAt k j [] = [failJob j e] := by
          simp [runSegs, hf, hbm]
        rw [hseg]
        refine ⟨by simp, ?_, ?_, ?_, ?_, ?_, ?_⟩
        · exact List.chain'_cons.mpr
            ⟨Or.inr ⟨hst, Or.inr (Or.inr rfl)⟩, List.chain'_singleton _⟩
        · intro x hx
          rw [List.mem_singleton] at hx
          rw [hx]
          exact ⟨h0, h1⟩
        · exact List.chain'_cons.mpr ⟨le_refl _, List.chain'_singleton _⟩
        · intro x hx
          simp at hx
          rw [hx]
          exact hst
        · intro k₀ msg₀ hfa hk1 hk2
          have hk' : k₀ = k := Nat.le_antisymm (by simpa using hk2) hk1
          rw [hfa] at hf
          simp [failsHere, if_pos hk'] at hf
        · intro hnone best hbm'
          exact absurd hbm' (by simp)
  | cons u us ih =>
    intro k j hst h0 h1 hchain hub
    simp only [List.map_cons] at hchain
    obtain ⟨hju, hchainTail⟩ := List.chain'_cons.mp hchain
    cases hf : failsHere failAt k with
    | some msg =>
      have hseg : runSegs ms fn failAt k j (u :: us) = [failJob j msg] := by
        simp [runSegs, hf]
      rw [hseg]
      refine ⟨by simp, ?_, ?_, ?_, ?_, ?_, ?_⟩
      · exact List.chain'_cons.mpr
          ⟨Or.inr ⟨hst, Or.inr (Or.inr rfl)⟩, List.chain'_singleton _⟩
      · intro x hx
        rw [List.mem_singleton] at hx
        rw [hx]
        exact ⟨h0, h1⟩
      · exact List.chain'_cons.mpr ⟨le_refl _, List.chain'_singleton _⟩
      · intro x hx
        simp at hx
        rw [hx]
        exact hst
      · intro k₀ msg₀ hfa _ _
        rw [hfa] at hf
        simp only [failsHere] at hf
        by_cases hk : k₀ = k
        · rw [if_pos hk, Option.some.injEq] at hf
          subst hf
          exact ⟨failJob j msg₀, by simp, rfl, rfl, rfl⟩
        · rw [if_neg hk] at hf
          exact absurd hf (by simp)
      · intro hnone
        rw [hnone] at hf
        simp [failsHere] at hf
    | none =>
      have hseg : runSegs ms fn failAt k j (u :: us) =
          applyStage j u :: runSegs ms fn failAt (k + 1) (applyStage j u) us := by
        simp [runSegs, hf]
      have hst' : (applyStage j u).status = .running := hst
      have h0' : 0 ≤ (applyStage j u).progress := le_trans h0 hju
      have h1' : (applyStage j u).progress ≤ 1 := hub u (List.mem_cons_self u us)
      have hub' : ∀ v ∈ us, v.1 ≤ 1 := fun v hv => hub v (List.mem_cons_of_mem u hv)
      obtain ⟨hne, hchA, hbounds, hchP, hdrop, hfail, hcomp⟩ :=
        ih (k + 1) (applyStage j u) hst' h0' h1' hchainTail hub'
      rw [hseg]
      refine ⟨by simp, ?_, ?_, ?_, ?_, ?_, ?_⟩
      · exact List.chain'_cons.mpr ⟨Or.inr ⟨hst, Or.inl hst'⟩, hchA⟩
      · intro x hx
        rcases List.mem_cons.mp hx with heq | hx'
        · rw [heq]
          exact ⟨h0', h1'⟩
        · exact hbounds x hx'
      · exact List.chain'_cons.mpr ⟨hju, hchP⟩
      · intro x hx
        rw [dropLast_cons_of_ne_nil j (by simp)] at hx
        rcases List.mem_cons.mp hx with heq | hx'
        · rw [heq]
          exact hst
        · exact hdrop x hx'
      · intro k₀ msg₀ hfa hk1 hk2
        have hk₀ : k₀ ≠ k := by
          intro h
          rw [hfa, h] at hf
          simp [failsHere] at hf
        obtain ⟨L, hL, h3, h4, h5⟩ := hfail k₀ msg₀ hfa
          (Nat.lt_of_le_of_ne hk1 (Ne.symm hk₀)) (by simp at hk2 ⊢; omega)
        exact ⟨L, by rw [getLast?_cons_of_ne_nil _ hne]; exact hL, h3, h4, h5⟩
      · intro hnone best hbm
        obtain ⟨L, hL, h3, h4, h5, h6⟩ := hcomp hnone best hbm
        exact ⟨L, by rw [getLast?_cons_of_ne_nil _ hne]; exact hL, h3, h4, h5, h6⟩

/-- C6 (amended): `generate_recommendations` returns at most 5 entries with
risk-factor-derived entries first and probability-derived ones last; the
priority recommendation is present exactly when probability > 0.8, the
lighter-touch one exactly when 0.6 < probability ≤ 0.8; the two generic
monitoring recommendations are produced exactly when no rule matched the top
3 positive features AND the probability is ≤ 0.6 (so no probability-derived
entry was appended either) — not, as claimed, whenever no rule matched. -/
theorem recommendation_generation (fi : List FeatureImpact) (p : ℚ) :
    (generate_recommendations fi p).length ≤ 5 ∧
    ((topRiskFactors fi).filterMap (recForFactor p) ≠ [] ∨ 0.6 < p →
      generate_recommendations fi p =
        (topRiskFactors fi).filterMap (recForFactor p) ++ probRecs p) ∧
    ((topRiskFactors fi).filterMap (recForFactor p) = [] ∧ p ≤ 0.6 →
      generate_recommendations fi p = [recMonitor, recSurvey]) ∧
    (recPriority ∈ generate_recommendations fi p ↔ 0.8 < p) ∧
    (recCall ∈ generate_recommendations fi p ↔ 0.6 < p ∧ p ≤ 0.8) := by
  have hR := rule_recs_length_le p fi
  have hP := probRecs_length_le p
  have htake : ((topRiskFactors fi).filterMap (recForFactor p) ++ probRecs p).take 5
      = (topRiskFactors fi).filterMap (recForFactor p) ++ probRecs p := by
    apply List.take_of_length_le
    rw [List.length_append]
    omega
  by_cases hempty :
      ((topRiskFactors fi).filterMap (recForFactor p) ++ probRecs p).isEmpty = true
  · have h2 := hempty
    rw [List.isEmpty_iff, List.append_eq_nil] at h2
    obtain ⟨hrule, hprob⟩ := h2
    have hp6 : p ≤ 0.6 := (probRecs_eq_nil_iff p).1 hprob
    have hres : generate_recommendations fi p = [recMonitor, recSurvey] := by
      unfold generate_recommendations
      rw [if_pos hempty]
      rfl
    refine ⟨by rw [hres]; simp, ?_, fun _ => hres, ?_, ?_⟩
    · rintro (h | h)
      · exact absurd hrule h
      · linarith
    · rw [hres]
      simp only [List.mem_cons, List.not_mem_nil, or_false]
      constructor
      · rintro (h | h) <;> exact absurd h (by decide)
      · intro h; linarith
    · rw [hres]
      simp only [List.mem_cons, List.not_mem_nil, or_false]
      constructor
      · rintro (h | h) <;> exact absurd h (by decide)
      · rintro ⟨h, _⟩; linarith
  · have hres : generate_recommendations fi p =
        (topRiskFactors fi).filterMap (recForFactor p) ++ probRecs p := by
      unfold generate_recommendations
      rw [if_neg hempty, htake]
    have hpm : recPriority ∉ (topRiskFactors fi).filterMap (recForFactor p) :=
      rule_recs_exclude p fi recPriority (Or.inl rfl)
    have hcm : recCall ∉ (topRiskFactors fi).filterMap (recForFactor p) :=
      rule_recs_exclude p fi recCall (Or.inr (Or.inl rfl))
    refine ⟨?_, fun _ => hres, ?_, ?_, ?_⟩
    · rw [hres, List.length_append]; omega
    · rintro ⟨hrule, hp6⟩
      rw [List.isEmpty_iff, List.append_eq_nil] at hempty
      exact absurd ⟨hrule, (probRecs_eq_nil_iff p).2 hp6⟩ hempty
    · rw [hres, List.mem_append]
      constructor
      · rintro (h | h)
        · exact absurd h hpm
        · exact (recPriority_mem_probRecs p).1 h
      · intro h; exact Or.inr ((recPriority_mem_probRecs p).2 h)
    · rw [hres, List.mem_append]
      constructor
      · rintro (h | h)
        · exact absurd h hcm
        · exact (recCall_mem_probRecs p).1 h
      · intro h; exact Or.inr ((recCall_mem_probRecs p).2 h)

/-- Witness for C6 (amended): one matching rule and probability 0.9 — the
contract recommendation precedes the priority one. -/
theorem recommendation_generation_witness :
    generate_recommendations [⟨"Contract_Month-to-month", 1/10⟩] 0.9 =
      (topRiskFactors [⟨"Contract_Month-to-month", 1/10⟩]).filterMap
        (recForFactor 0.9) ++ probRecs 0.9 :=
  (recommendation_generation [⟨"Contract_Month-to-month", 1/10⟩] 0.9).2.1
    (Or.inr (by norm_num))

/-- C6 counterexample: no rule matches (no positive impacts) yet the result
is the single priority recommendation, not the two generic monitoring ones,
because the probability 0.9 already appended an entry. -/
theorem recommendation_fallback_counterexample :
    (topRiskFactors []).filterMap (recForFactor 0.9) = [] ∧
    generate_recommendations [] 0.9 = [recPriority] ∧
    recMonitor ∉ generate_recommendations [] 0.9 ∧
    recSurvey ∉ generate_recommendations [] 0.9 := by
  have h1 : (topRiskFactors []).filterMap (recForFactor (0.9 : ℚ)) = [] := by
    simp [topRiskFactors]
  have hp : probRecs (0.9 : ℚ) = [recPriority] := by
    unfold probRecs
    norm_num
  have h2 : generate_recommendations [] 0.9 = [recPriority] := by
    unfold generate_recommendations
    rw [h1, hp]
    rfl
  refine ⟨h1, h2, ?_, ?_⟩ <;> rw [h2] <;> decide

/-- C8: `get_best_model` errors when nothing has been evaluated; otherwise it
returns the variant whose stored value of the comparison metric (default
`roc_auc`) is maximal, and every variant stored before the returned one is
strictly smaller, so ties go to the first-encountered variant. -/
theorem best_model_selection (e : ModelEvaluator) (metric : MetricName) :
    (e.metrics = [] →
      e.get_best_model metric = .error "No models have been evaluated yet") ∧
    (e.metrics ≠ [] →
      ∃ nm mt l₁ l₂,
        e.get_best_model metric = .ok (nm, Metrics.get mt metric) ∧
        e.metrics = l₁ ++ (nm, mt) :: l₂ ∧
        (∀ x ∈ e.metrics, Metrics.get x.2 metric ≤ Metrics.get mt metric) ∧
        (∀ x ∈ l₁, Metrics.get x.2 metric < Metrics.get mt metric)) := by
  constructor
  · intro h
    simp [ModelEvaluator.get_best_model, pyMax, h]
  · intro h
    obtain ⟨m0, ms, hms⟩ := List.exists_cons_of_ne_nil h
    obtain ⟨l₁, l₂, hsplit, hlt⟩ :=
      foldl_pyMaxStep_first (fun x => Metrics.get x.2 metric) m0 ms
    have hle := foldl_pyMaxStep_le (fun x => Metrics.get x.2 metric) m0 ms
    refine ⟨(ms.foldl (pyMaxStep fun x => Metrics.get x.2 metric) m0).1,
      (ms.foldl (pyMaxStep fun x => Metrics.get x.2 metric) m0).2, l₁, l₂,
      ?_, ?_, ?_, ?_⟩
    · simp [ModelEvaluator.get_best_model, pyMax, hms]
    · rw [hms, hsplit]
    · intro x hx
      rw [hms] at hx
      exact hle x hx
    · exact hlt

/-- Witness for C8 on a two-variant store with tied `roc_auc`. -/
theorem best_model_selection_witness :
    ∃ nm mt l₁ l₂,
      (ModelEvaluator.mk
        [("Logistic Regression", ⟨0.8, 0.7, 0.6, 0.65, 0.85⟩),
         ("Random Forest", ⟨0.9, 0.8, 0.7, 0.75, 0.85⟩)]).get_best_model
          .roc_auc = .ok (nm, Metrics.get mt .roc_auc) ∧
      (ModelEvaluator.mk
        [("Logistic Regression", ⟨0.8, 0.7, 0.6, 0.65, 0.85⟩),
         ("Random Forest", ⟨0.9, 0.8, 0.7, 0.75, 0.85⟩)]).metrics =
        l₁ ++ (nm, mt) :: l₂ ∧
      (∀ x ∈ (ModelEvaluator.mk
        [("Logistic Regression", ⟨0.8, 0.7, 0.6, 0.65, 0.85⟩),
         ("Random Forest", ⟨0.9, 0.8, 0.7, 0.75, 0.85⟩)]).metrics,
        Metrics.get x.2 .roc_auc ≤ Metrics.get mt .roc_auc) ∧
      (∀ x ∈ l₁, Metrics.get x.2 .roc_auc < Metrics.get mt .roc_auc) :=
  (best_model_selection
    (ModelEvaluator.mk
      [("Logistic Regression", ⟨0.8, 0.7, 0.6, 0.65, 0.85⟩),
       ("Random Forest", ⟨0.9, 0.8, 0.7, 0.75, 0.85⟩)]) .roc_auc).2
    (by simp)

theorem pdCutIdx_tenure (t : ℚ) :
    pdCutIdx tenureBins t =
      if 0 < t ∧ t ≤ 12 then some 0
      else if 12 < t ∧ t ≤ 24 then some 1
      else if 24 < t ∧ t ≤ 48 then some 2
      else if 48 < t ∧ t ≤ 72 then some 3
      else none := by
  show pdCutIdx [0, 12, 24, 48, 72] t = _
  rw [pdCutIdx, pdCutIdx, pdCutIdx, pdCutIdx,
    show pdCutIdx [72] t = none from rfl]
  split_ifs <;> simp

/-- C4 (amended): `pd.cut` with bins `[0,12,24,48,72]` uses left-open,
right-closed intervals, so every tenure in (0, 72] — but NOT tenure = 0 —
falls into exactly one of the four bins, and the one-hot expansion marks
exactly that bin. -/
theorem tenure_bucketing (t : ℚ) (h0 : 0 < t) (h72 : t ≤ 72) :
    ∃ i, i < 4 ∧ pdCutIdx tenureBins t = some i ∧
      tenureOneHot t = (List.range 4).map (fun j => decide (i = j)) ∧
      (tenureOneHot t).count true = 1 := by
  have key : ∀ k, pdCutIdx tenureBins t = some k → k < 4 ∧
      tenureOneHot t = (List.range 4).map (fun j => decide (k = j)) ∧
      (tenureOneHot t).count true = 1 := by
    intro k hk
    have hlt : k < 4 := by
      rw [pdCutIdx_tenure] at hk
      split_ifs at hk <;> simp_all <;> omega
    have hrow : tenureOneHot t = (List.range 4).map (fun j => decide (k = j)) := by
      unfold tenureOneHot
      simp only [hk, tenureLabels, List.length_cons, List.length_nil,
        Option.some.injEq]
    refine ⟨hlt, hrow, ?_⟩
    rw [hrow]
    interval_cases k <;> decide
  have hsome : ∃ k, pdCutIdx tenureBins t = some k := by
    rw [pdCutIdx_tenure]
    split_ifs with c1 c2 c3 c4
    · exact ⟨0, rfl⟩
    · exact ⟨1, rfl⟩
    · exact ⟨2, rfl⟩
    · exact ⟨3, rfl⟩
    · exfalso
      have h12 : 12 < t := by by_contra hx; exact c1 ⟨h0, by linarith⟩
      have h24 : 24 < t := by by_contra hx; exact c2 ⟨h12, by linarith⟩
      have h48 : 48 < t := by by_contra hx; exact c3 ⟨h24, by linarith⟩
      exact c4 ⟨h48, h72⟩
  obtain ⟨k, hk⟩ := hsome
  obtain ⟨hlt, h1, h2⟩ := key k hk
  exact ⟨k, hlt, hk, h1, h2⟩

/-- Witness for C4 at tenure 30 (bin 2, the 24-48 months bucket). -/
theorem tenure_bucketing_witness :
    ∃ i, i < 4 ∧ pdCutIdx tenureBins 30 = some i ∧
      tenureOneHot 30 = (List.range 4).map (fun j => decide (i = j)) ∧
      (tenureOneHot 30).count true = 1 :=
  tenure_bucketing 30 (by norm_num) (by norm_num)

/-- C4 counterexample: tenure 0 is assigned to no bin — `pd.cut` yields NaN
at the left edge — so its one-hot row is all zeros, not exactly one bin. -/
theorem tenure_zero_counterexample :
    pdCutIdx tenureBins 0 = none ∧
    tenureOneHot 0 = [false, false, false, false] ∧
    create_tenure_groups ⟨[("tenure", [Val.vnum 0])]⟩ =
      ⟨[("tenure", [Val.vnum 0]),
        ("tenure_0-1 year", [Val.vbool false]),
        ("tenure_1-2 years", [Val.vbool false]),
        ("tenure_2-4 years", [Val.vbool false]),
        ("tenure_4+ years", [Val.vbool false])]⟩ := by
  have h : pdCutIdx tenureBins 0 = none := by
    rw [pdCutIdx_tenure]
    norm_num
  refine ⟨h, ?_, ?_⟩
  · simp [tenureOneHot, tenureLabels, h, List.range_succ]
  · rfl

/-- C10: `encode_categorical` ignores its `fit` parameter — for every input
DataFrame the fit-mode and transform-mode results coincide (the same binary
maps and a `pd.get_dummies` expansion recomputed from the categories present
in the input), so no categorical encoding state learned at fit time is ever
applied at transform time. -/
theorem encode_categorical_ignores_fit (df : Df) (fit₁ fit₂ : Bool) :
    encode_categorical df fit₁ = encode_categorical df fit₂ := rfl

/-- C1 fails on the code: fit mode on the corpus records five feature names
and a five-column scaler; transform mode on a single record that does not
exhibit every fit-time Contract category re-derives the one-hot columns from
the record alone (three names — the unseen categories' columns are silently
omitted) and the frozen scaler rejects the width, so no feature vector with
the fit-time column set and order is produced. -/
theorem feature_parity_failure :
    fittedProcessor.feature_names =
      ["tenure", "MonthlyCharges", "TotalCharges",
       "Contract_One year", "Contract_Two year"] ∧
    fittedProcessor.scaler.n_features_in = some 5 ∧
    (prepare_features (encode_categorical (clean_data singleRecord) false)
      "Churn").1.colNames = ["tenure", "MonthlyCharges", "TotalCharges"] ∧
    process_pipeline fittedProcessor singleRecord false "Churn" =
      .error "ValueError: X has a different number of features than StandardScaler is expecting" :=
  ⟨rfl, rfl, rfl, rfl⟩

/-- C2: `process_pipeline` accepts only `(df, fit, target_col)`, yet both
single-prediction serving paths pass `expected_features` as well, so every
request reaching that call raises `TypeError` — the error branch, never a
feature vector: `/predict` turns it into the HTTP 500 branch, and in
`bulk_predict` (shown on an arbitrary row in `bulkProcessRow`) it becomes
the row's captured exception. -/
theorem serving_expected_features_typeerror (proc : DataProcessor)
    (pred : Predictor) (df : Df) (row : List (String × Val)) :
    unexpectedKwargs processPipelineParams servingCallKwargs =
      ["expected_features"] ∧
    (∀ fit t, callProcessPipeline servingCallKwargs proc df fit t =
      .error "TypeError: process_pipeline() got an unexpected keyword argument expected_features") ∧
    predict_churn proc pred df =
      .httpError 500 "Prediction failed: TypeError: process_pipeline() got an unexpected keyword argument expected_features" ∧
    (∀ d, bulkInputDf row = .ok d →
      bulkProcessRow proc pred row =
        .error "TypeError: process_pipeline() got an unexpected keyword argument expected_features") := by
  refine ⟨rfl, fun fit t => rfl, rfl, fun d hd => ?_⟩
  simp only [bulkProcessRow, hd]
  rfl

/-- Witness for C2: the concrete serving row reaches the call and gets the
TypeError. -/
theorem serving_expected_features_typeerror_witness :
    bulkProcessRow initProcessor (Predictor.mk (some ⟨fun _ => 1/2⟩) "XGBoost")
        bulkGoodRow =
      .error "TypeError: process_pipeline() got an unexpected keyword argument expected_features" :=
  (serving_expected_features_typeerror initProcessor
    (Predictor.mk (some ⟨fun _ => 1/2⟩) "XGBoost") ⟨[]⟩ bulkGoodRow).2.2.2
    _ rfl

/-- C7 fails on the code: `bulk_predict`'s per-row try/except does isolate
failures — each row yields exactly one entry carrying its ordinal position,
in input order, and a malformed row does not abort the batch — but NO row
ever yields a normal prediction: the well-formed row 1 also produces an
error entry, because `process_pipeline` rejects the `expected_features`
keyword before any feature vector exists.  (The other batch endpoint,
`/predict-batch`, runs the whole frame through one pipeline call with no
per-row isolation at all.) -/
theorem batch_row_isolation_failure :
    (bulk_predict fittedProcessor (Predictor.mk (some ⟨fun _ => 1/2⟩) "XGBoost")
        [bulkGoodRow, bulkBadRow]).map (fun r => (r.row_number, r.error)) =
      [(1, some "TypeError: process_pipeline() got an unexpected keyword argument expected_features"),
       (2, some "ValueError: could not convert string to float: abc")] := rfl

/-- C9: along every execution of the background training task the status
moves only pending → running → {completed, failed} with the terminal states
last; progress stays in [0,1] and never decreases across the committed
snapshots; a stage failure ends the run failed with the error message and a
completion timestamp recorded; and a fully successful run ends completed
with progress 1 and a results summary carrying the best-model identity and
the feature count. -/
theorem training_job_state_machine (ms : List (String × Metrics))
    (fn : List String) (failAt : Option (Nat × String)) :
    (train_models_task ms fn failAt).head? = some initialJob ∧
    initialJob.status = .pending ∧
    List.Chain' allowedTransition (train_models_task ms fn failAt) ∧
    (∀ x ∈ train_models_task ms fn failAt, 0 ≤ x.progress ∧ x.progress ≤ 1) ∧
    List.Chain' (fun a b => a.progress ≤ b.progress)
      (train_models_task ms fn failAt) ∧
    (∀ x ∈ (train_models_task ms fn failAt).dropLast,
      x.status ≠ .completed ∧ x.status ≠ .failed) ∧
    (∀ k₀ msg, failAt = some (k₀, msg) → k₀ ≤ 7 →
      ∃ L, (train_models_task ms fn failAt).getLast? = some L ∧
        L.status = .failed ∧ L.error_message = some msg ∧
        L.completed_at = true) ∧
    (failAt = none →
      ∀ best, (ModelEvaluator.mk ms).get_best_model .roc_auc = .ok best →
      ∃ L, (train_models_task ms fn failAt).getLast? = some L ∧
        L.status = .completed ∧ L.progress = 1 ∧
        L.results = some ⟨best.1, fn.length⟩) := by
  have hst1 : runningJob1.status = .running := rfl
  have h01 : (0 : ℚ) ≤ runningJob1.progress := by norm_num [runningJob1]
  have h11 : runningJob1.progress ≤ 1 := by norm_num [runningJob1]
  have hchain1 : List.Chain' (· ≤ ·)
      (runningJob1.progress :: laterStageUpdates.map Prod.fst) := by
    simp only [runningJob1, laterStageUpdates, List.map_cons, List.map_nil,
      List.chain'_cons, List.chain'_singleton, and_true]
    norm_num
  have hub1 : ∀ u ∈ laterStageUpdates, u.1 ≤ 1 := by
    intro u hu
    simp only [laterStageUpdates, List.mem_cons, List.not_mem_nil, or_false] at hu
    rcases hu with rfl | rfl | rfl | rfl | rfl | rfl | rfl <;> norm_num
  obtain ⟨hne, hchA, hbounds, hchP, hdrop, hfail, hcomp⟩ :=
    runSegs_invariant ms fn failAt laterStageUpdates 0 runningJob1
      hst1 h01 h11 hchain1 hub1
  have hlast2 : (train_models_task ms fn failAt).getLast? =
      (runSegs ms fn failAt 0 runningJob1 laterStageUpdates).getLast? := by
    unfold train_models_task
    rw [getLast?_cons_of_ne_nil _ (by simp), getLast?_cons_of_ne_nil _ hne]
  refine ⟨rfl, rfl, ?_, ?_, ?_, ?_, ?_, ?_⟩
  · exact List.chain'_cons.mpr ⟨Or.inl ⟨rfl, rfl⟩, hchA⟩
  · intro x hx
    rcases List.mem_cons.mp hx with heq | hx'
    · rw [heq]
      norm_num [initialJob]
    rcases List.mem_cons.mp hx' with heq | hx''
    · rw [heq]
      exact ⟨h01, h11⟩
    · exact hbounds x hx''
  · refine List.chain'_cons.mpr ⟨?_, hchP⟩
    norm_num [initialJob, runningJob1]
  · intro x hx
    unfold train_models_task at hx
    rw [dropLast_cons_of_ne_nil _ (by simp)] at hx
    rcases List.mem_cons.mp hx with heq | hx'
    · rw [heq]
      exact ⟨by decide, by decide⟩
    · have hr := hdrop x hx'
      exact ⟨by simp [hr], by simp [hr]⟩
  · intro k₀ msg hfa hk7
    obtain ⟨L, hL, h3, h4, h5⟩ := hfail k₀ msg hfa (Nat.zero_le _)
      (by simp only [laterStageUpdates, List.length_cons, List.length_nil]; omega)
    exact ⟨L, by rw [hlast2]; exact hL, h3, h4, h5⟩
  · intro hnone best hbm
    obtain ⟨L, hL, h3, h4, _, h6⟩ := hcomp hnone best hbm
    exact ⟨L, by rw [hlast2]; exact hL, h3, h4, h6⟩

/-- Witness for C9: a failure-free run over one evaluated variant completes
with that variant as best model and the feature count recorded. -/
theorem training_job_state_machine_witness :
    ∃ L, (train_models_task [("XGBoost", ⟨1, 1, 1, 1, 1⟩)] ["a", "b"]
        none).getLast? = some L ∧
      L.status = JobStatus.completed ∧ L.progress = 1 ∧
      L.results = some ⟨"XGBoost", 2⟩ :=
  (training_job_state_machine [("XGBoost", ⟨1, 1, 1, 1, 1⟩)] ["a", "b"]
    none).2.2.2.2.2.2.2 rfl ("XGBoost", 1) rfl

/-- C3: risk-tier assignment — HIGH iff p ≥ 0.70, MEDIUM iff 0.40 ≤ p < 0.70,
LOW iff p < 0.40; the tiers are mutually exclusive and exhaustive, and the
tier is monotone in the probability under LOW < MEDIUM < HIGH. -/
theorem risk_tier_assignment (p : ℚ) :
    (getRiskLevel p = .HIGH ↔ 0.7 ≤ p) ∧
    (getRiskLevel p = .MEDIUM ↔ 0.4 ≤ p ∧ p < 0.7) ∧
    (getRiskLevel p = .LOW ↔ p < 0.4) ∧
    (∀ q : ℚ, p < q → riskRank (getRiskLevel p) ≤ riskRank (getRiskLevel q)) :=
  ⟨getRiskLevel_high_iff p, getRiskLevel_medium_iff p, getRiskLevel_low_iff p,
   fun _ hq => riskRank_mono (le_of_lt hq)⟩

/-- Witness for C3 at p = 0.5 and the pair (0.3, 0.8). -/
theorem risk_tier_assignment_witness :
    getRiskLevel 0.5 = RiskLevel.MEDIUM ∧
    riskRank (getRiskLevel 0.3) ≤ riskRank (getRiskLevel 0.8) :=
  ⟨(risk_tier_assignment 0.5).2.1.mpr (by norm_num),
   (risk_tier_assignment 0.3).2.2.2 0.8 (by norm_num)⟩

/-- C5: `predict_single` and `predict_batch` both fail with the
model-not-loaded error exactly when no model is attached; with a model
attached neither raises that error. -/
theorem model_unavailable_failure (p : Predictor) (x : List ℚ)
    (xs : List (List ℚ)) :
    (p.model = none →
      p.predict_single x = .error .modelNotLoaded ∧
      p.predict_batch xs = .error .modelNotLoaded) ∧
    (∀ m, p.model = some m →
      p.predict_single x ≠ .error .modelNotLoaded ∧
      p.predict_batch xs ≠ .error .modelNotLoaded) := by
  constructor
  · intro h
    simp [Predictor.predict_single, Predictor.predict_batch, h]
  · intro m h
    simp [Predictor.predict_single, Predictor.predict_batch, h]

/-- Witness for C5: a predictor with no model fails, a loaded one does not. -/
theorem model_unavailable_failure_witness :
    (Predictor.mk none "XGBoost").predict_single [0] =
      .error PredictorError.modelNotLoaded ∧
    (Predictor.mk (some ⟨fun _ => 0.5⟩) "XGBoost").predict_single [0] ≠
      .error PredictorError.modelNotLoaded :=
  ⟨((model_unavailable_failure (Predictor.mk none "XGBoost") [0] []).1 rfl).1,
   ((model_unavailable_failure (Predictor.mk (some ⟨fun _ => 0.5⟩) "XGBoost")
      [0] []).2 ⟨fun _ => 0.5⟩ rfl).1⟩
